import Mathlib

/-!
Shallow embedding of the brickscout-ebay-mcp server (src/api/mcp.js and the
alternative handler src/unnamed/part_000) together with proofs about the
claims of the specification.

JavaScript values that appear in upstream payload fields are modelled by
`JVal` (null, string, or finite number); `Option JVal` models a field that
may also be `undefined` (absent).  JavaScript numbers are modelled by
`Option Rat`, with `none` standing for NaN; the fragment of `Number(...)`
string parsing embedded in `jsStrToNum` covers signed decimal literals
(the only shapes that occur in the payloads the code handles); exotic
forms (hex, exponent, Infinity) are conservatively mapped to NaN.
-/

namespace BrickScout

/-- A JSON-ish JavaScript value as it appears in payload fields. -/
inductive JVal where
  | vNull
  | vStr (s : String)
  | vNum (q : Rat)
deriving DecidableEq

/-- JS whitespace test (the `\s` class restricted to ASCII whitespace,
which is all the code's inputs contain). -/
def isWsChar (c : Char) : Bool := c.isWhitespace

/-- `String.prototype.trim` on the character list. -/
def charTrim (cs : List Char) : List Char :=
  ((cs.dropWhile isWsChar).reverse.dropWhile isWsChar).reverse

/-- JS `trim()`. -/
def jsTrim (s : String) : String := String.mk (charTrim s.data)

/-- Numeric value of a digit list (most significant first). -/
def digitsVal (ds : List Char) : Nat :=
  ds.foldl (fun a c => a * 10 + (c.toNat - 48)) 0

/-- Shape of an unsigned decimal literal: integer digits, optionally
followed by a point and fractional digits.  `none` is NaN. -/
def decParts (cs : List Char) : Option (List Char × List Char) :=
  let ip := cs.takeWhile (·.isDigit)
  let rest := cs.dropWhile (·.isDigit)
  match rest with
  | [] => if ip = [] then none else some (ip, [])
  | '.' :: frac =>
    if frac.all (·.isDigit) ∧ (ip ≠ [] ∨ frac ≠ []) then some (ip, frac)
    else none
  | _ => none

/-- Rational value of a parsed decimal literal. -/
def partsToRat (p : List Char × List Char) : Rat :=
  (digitsVal p.1 : Rat) + (digitsVal p.2 : Rat) / (10 : Rat) ^ p.2.length

/-- Parse an unsigned decimal literal.  `none` is NaN. -/
def parseDecCore (cs : List Char) : Option Rat :=
  (decParts cs).map partsToRat

/-- JS `Number(s)` for a string: empty/whitespace-only is `0`, otherwise a
signed decimal literal; anything else is NaN (`none`). -/
def jsStrToNum (s : String) : Option Rat :=
  match charTrim s.data with
  | [] => some 0
  | '-' :: rest => (parseDecCore rest).map (fun q => -q)
  | '+' :: rest => parseDecCore rest
  | cs => parseDecCore cs

/-- JS `Number(x)` on a possibly-absent payload value:
`Number(undefined) = NaN`, `Number(null) = 0`. -/
def jsToNumber (x : Option JVal) : Option Rat :=
  match x with
  | none => none
  | some .vNull => some 0
  | some (.vNum q) => some q
  | some (.vStr s) => jsStrToNum s

/-- `toNum(x, fallback)` from mcp.js: `Number(x)` if finite, else the
fallback. -/
def toNum (x : Option JVal) (fallback : Rat) : Rat :=
  (jsToNumber x).getD fallback

/-- `toNum(x, NaN)`: the NaN fallback keeps the not-finite case as `none`. -/
def toNumNaN (x : Option JVal) : Option Rat := jsToNumber x

/-- JS truthiness of a number (NaN and 0 are falsy). -/
def numTruthy (a : Option Rat) : Bool :=
  match a with
  | some q => decide (q ≠ 0)
  | none => false

/-- JS `a || b` on numbers. -/
def jsOrNum (a b : Option Rat) : Option Rat :=
  if numTruthy a then a else b

/-- JS truthiness of a possibly-absent `JVal`. -/
def jvalTruthy (v : Option JVal) : Bool :=
  match v with
  | none => false
  | some .vNull => false
  | some (.vStr s) => decide (s ≠ "")
  | some (.vNum q) => decide (q ≠ 0)

/-- `clampInt(n, min, max, fallback)` from mcp.js. -/
def clampInt (n : Option JVal) (lo hi fallback : Int) : Int :=
  match jsToNumber n with
  | none => fallback
  | some q => max lo (min hi ⌊q⌋)

/-- `pickFirst(...vals)` from mcp.js: first value that is neither
null/undefined nor a blank string; `null` if none qualifies. -/
def pickFirst (vals : List (Option JVal)) : JVal :=
  match vals with
  | [] => .vNull
  | v :: rest =>
    match v with
    | none => pickFirst rest
    | some .vNull => pickFirst rest
    | some (.vStr s) => if jsTrim s = "" then pickFirst rest else .vStr s
    | some (.vNum q) => .vNum q

/-! ### Query sanitizer (`sanitizeBrowseQuery`, mcp.js lines 80-94) -/

/-- Worker for `wsTokens`; the `Nat` argument is recursion fuel, always
at least the length of the list (see `wsTokens`), so the `0` base case is
never reached on the lists the program feeds it. -/
def wsTokensAux : Nat → List Char → List (List Char)
  | 0, _ => []
  | _ + 1, [] => []
  | n + 1, c :: cs =>
    if isWsChar c then wsTokensAux n cs
    else (c :: cs.takeWhile (fun x => ¬ isWsChar x)) ::
      wsTokensAux n (cs.dropWhile (fun x => ¬ isWsChar x))

/-- Split on runs of whitespace, as `s.split(/\s+/g)` does on an already
trimmed string (no empty tokens). -/
def wsTokens (cs : List Char) : List (List Char) := wsTokensAux cs.length cs

/-- The filter of mcp.js line 85-90: drop empty tokens, `-`-prefixed
tokens and the literal operators. -/
def keepToken (t : List Char) : Bool :=
  match t with
  | [] => false
  | c :: _ =>
    if c = '-' then false
    else ¬(t = "OR".data || t = "AND".data || t = "NOT".data)

/-- The replace step of the second fallback: delete every dash that is
followed by at least one non-whitespace character together with that run
(the global regex "dash then one or more non-space" of mcp.js line 93). -/
def stripDashAux : Nat → List Char → List Char
  | 0, _ => []
  | _ + 1, [] => []
  | n + 1, c :: rest =>
    if c = '-' ∧ rest.takeWhile (fun x => ¬ isWsChar x) ≠ [] then
      stripDashAux n (rest.dropWhile (fun x => ¬ isWsChar x))
    else c :: stripDashAux n rest

/-- As `stripDashAux`, with enough fuel for its argument. -/
def stripDashRuns (cs : List Char) : List Char := stripDashAux cs.length cs

/-- `sanitizeBrowseQuery(raw)` from mcp.js. -/
def sanitizeBrowseQuery (raw : String) : String :=
  let s := charTrim raw.data
  if s = [] then ""
  else
    let tokens := wsTokens s
    let cleaned := tokens.filter keepToken
    let out := charTrim (List.intercalate [' '] cleaned)
    if out ≠ [] then String.mk out
    else
      let stripped := charTrim (stripDashRuns s)
      if stripped ≠ [] then String.mk stripped else ""

/-! ### Shared JS helpers for the handlers -/

/-- JS truthiness of a possibly-absent string value. -/
def strTruthy (o : Option String) : Bool :=
  match o with
  | some s => decide (s ≠ "")
  | none => false

/-- JS `x || dflt` for a string-valued expression (`String(args?.query || "")`,
`String(args?.sort || "BEST_MATCH")`). -/
def jsOrStr (a : Option String) (dflt : String) : String :=
  match a with
  | some s => if s = "" then dflt else s
  | none => dflt

/-- JS `Math.max` on numbers (`none` is NaN, which propagates). -/
def jsMax (a b : Option Rat) : Option Rat :=
  match a, b with
  | some x, some y => some (max x y)
  | _, _ => none

/-- JS `Math.min` on numbers (`none` is NaN, which propagates). -/
def jsMin (a b : Option Rat) : Option Rat :=
  match a, b with
  | some x, some y => some (min x y)
  | _, _ => none

/-- JS `x ?? dflt` followed by `Number(...)`, for `Number(args?.limit ?? 50)`. -/
def numOrNullish (a : Option JVal) (dflt : Rat) : Option Rat :=
  match a with
  | none => some dflt
  | some .vNull => some dflt
  | some v => jsToNumber (some v)

/-! ### OAuth token cache, mcp.js variant (lines 22 and 99-137)

The network call is abstracted by an `OAuthResp` oracle describing the
response the `fetch` would produce.  Timestamps are rationals (JS numbers
in epoch milliseconds).  The cached `accessToken` is `Option String`:
`none` covers both the initial `null` and an `undefined` stored from a
response body that lacks the field (both are falsy); non-string token
payloads are not modelled. -/

structure TokenCacheMcp where
  accessToken : Option String
  expiresAtMs : Rat
deriving DecidableEq

structure OAuthResp where
  ok : Bool
  status : Nat
  /-- Whether `resp.json()` resolves (body is valid JSON). -/
  bodyParses : Bool
  /-- `data.access_token`; `none` when the field is absent. -/
  accessToken : Option String
  /-- `data.expires_in`. -/
  expiresIn : Option JVal
  /-- Body text used in error messages. -/
  text : String
deriving DecidableEq

/-- `getAccessToken()` from mcp.js: takes the current cache and clock plus
the credential environment and the response the OAuth endpoint would give,
and returns the token handed to the caller together with the new cache
state (or the thrown error message). -/
def getAccessTokenMcp (cache : TokenCacheMcp) (now : Rat)
    (clientId clientSecret : Option String) (resp : OAuthResp) :
    Except String (Option String × TokenCacheMcp) :=
  if strTruthy cache.accessToken ∧ cache.expiresAtMs - 30000 > now then
    .ok (cache.accessToken, cache)
  else if ¬ strTruthy clientId ∨ ¬ strTruthy clientSecret then
    .error "Missing EBAY_CLIENT_ID / EBAY_CLIENT_SECRET"
  else if ¬ resp.ok then
    .error ("OAuth failed " ++ toString resp.status ++ ": " ++ resp.text)
  else if ¬ resp.bodyParses then
    .error "OAuth response body is not valid JSON"
  else
    let cache' : TokenCacheMcp :=
      { accessToken := resp.accessToken
        expiresAtMs := now + toNum (resp.expiresIn) 7200 * 1000 }
    .ok (cache'.accessToken, cache')

/-! ### OAuth token cache, part_000 variant (`getEbayAccessToken`,
src/unnamed/part_000 lines 14-15 and 27-81)

`now` is the `Date.now()` read at entry (line 28); `now2` is the second
`Date.now()` read when storing the refreshed expiry (line 78). -/

structure TokenCacheP0 where
  cachedToken : Option String
  cachedTokenExpiresAt : Rat
deriving DecidableEq

/-- `json?.access_token` after `const json = await resp.json().catch(() => null)`:
an unparsable body degrades to `null`, so the field read gives `undefined`. -/
def p0Token (resp : OAuthResp) : Option String :=
  if resp.bodyParses then resp.accessToken else none

/-- `json?.expires_in`, with the same parse-failure degradation. -/
def p0ExpiresIn (resp : OAuthResp) : Option JVal :=
  if resp.bodyParses then resp.expiresIn else none

/-- `Number(json?.expires_in || 0)`. -/
def p0ExpiresInSec (resp : OAuthResp) : Option Rat :=
  jsToNumber (match p0ExpiresIn resp with
    | none => some (.vNum 0)
    | some v => if jvalTruthy (some v) then some v else some (.vNum 0))

/-- `getEbayAccessToken()` from part_000. -/
def getEbayAccessTokenP0 (cache : TokenCacheP0) (now now2 : Rat)
    (clientId clientSecret refreshToken : Option String) (resp : OAuthResp) :
    Except String (String × TokenCacheP0) :=
  if strTruthy cache.cachedToken ∧ cache.cachedTokenExpiresAt - now > 60000 then
    .ok (cache.cachedToken.getD "", cache)
  else if ¬ strTruthy clientId ∨ ¬ strTruthy clientSecret ∨ ¬ strTruthy refreshToken then
    .error "Missing eBay env vars. Set EBAY_CLIENT_ID, EBAY_CLIENT_SECRET, EBAY_REFRESH_TOKEN."
  else if ¬ resp.ok then
    .error ("eBay token refresh failed (" ++ toString resp.status ++ ")")
  else if ¬ strTruthy (p0Token resp) ∨ ¬ numTruthy (p0ExpiresInSec resp) then
    .error "eBay token refresh returned unexpected payload"
  else
    let tok := (p0Token resp).getD ""
    let cache2 : TokenCacheP0 :=
      { cachedToken := some tok
        cachedTokenExpiresAt := now2 + (p0ExpiresInSec resp).getD 0 * 1000 }
    .ok (tok, cache2)

/-! ### mcp.js Vercel handler (lines 283-339) -/

inductive HttpMethod where
  | GET
  | POST
  | OPTIONS
  | other (s : String)
deriving DecidableEq

/-- The JSON-RPC-ish bodies the handlers send. -/
inductive McpBody where
  /-- `res.end()` with no body (the 204 preflight answer). -/
  | empty
  /-- A plain `{ error: msg }` object. -/
  | errObj (msg : String)
  /-- `rpcResult(id, { content: [{ type: "text", text }] })`. -/
  | rpcOk (id : Option JVal) (text : String)
  /-- `rpcError(id, msg, code)`. -/
  | rpcErr (id : Option JVal) (code : Int) (msg : String)
deriving DecidableEq

structure HttpOut where
  status : Nat
  body : McpBody
deriving DecidableEq

/-- An HTTP status in the success range. -/
def isSuccessStatus (s : Nat) : Bool := 200 ≤ s ∧ s < 300

/-- The incoming request as mcp.js reads it: HTTP method, the two
credential environment variables, and the JSON-RPC envelope fields. -/
structure McpRequest where
  httpMethod : HttpMethod
  envClientId : Option String
  envClientSecret : Option String
  jsonrpc : Option String
  id : Option JVal
  method : Option String
  paramsName : Option String
  argQuery : Option String
  argLimit : Option JVal
  /-- A `sort` member of `params.arguments`, which the mcp.js handler
  never reads (lines 320-321 destructure only `query` and `limit`). -/
  argSort : Option String
deriving DecidableEq

/-- `id ?? null`. -/
def idOrNull (id : Option JVal) : Option JVal := some (id.getD .vNull)

/-- String interpolation of a possibly-undefined tool name
(`` `Unknown tool: ${tool}` ``). -/
def toolNameStr (t : Option String) : String := t.getD "undefined"

/-- The mcp.js `handler`.  The search pipeline it delegates to is
abstracted by its outcome: `.ok text` is the serialized enriched item
list, `.error e` a thrown message (caught at line 335). -/
def mcpHandler (req : McpRequest) (pipeline : Except String String) : HttpOut :=
  if req.httpMethod = .OPTIONS then ⟨204, .empty⟩
  else if req.httpMethod ≠ .POST then ⟨405, .errObj "Use POST"⟩
  else if ¬ strTruthy req.envClientId ∨ ¬ strTruthy req.envClientSecret then
    ⟨500, .errObj "Server misconfigured: missing eBay credentials"⟩
  else if req.jsonrpc ≠ some "2.0" then
    ⟨400, .rpcErr (idOrNull req.id) (-32600) "Invalid jsonrpc"⟩
  else if req.method ≠ some "tools/call" then
    ⟨400, .rpcErr req.id (-32601) "Invalid method"⟩
  else if req.paramsName = some "search_ebay" then
    match pipeline with
    | .ok text => ⟨200, .rpcOk req.id text⟩
    | .error e => ⟨200, .rpcErr (idOrNull req.id) (-32000) e⟩
  else ⟨400, .rpcErr req.id (-32601) ("Unknown tool: " ++ toolNameStr req.paramsName)⟩

/-- The search request `browseSearch` (mcp.js lines 162-172) sends
upstream: query parameter `q` and the clamped limit. -/
structure BrowseSearchReq where
  q : String
  limit : Int
  /-- Upstream `sort` query parameter; `none` when absent. -/
  sort : Option String
  /-- Upstream `sortOrder` query parameter; `none` when absent. -/
  sortOrder : Option String
deriving DecidableEq

/-- `browseSearch({query, limit})`: the parameters of the one upstream
search call it always issues.  The `URLSearchParams` at lines 166-169
carries only `q` and `limit`; no sort parameter is ever added. -/
def browseSearchReq (query : String) (limit : Option JVal) : BrowseSearchReq :=
  let lim := clampInt limit 1 50 25
  let cleaned := sanitizeBrowseQuery query
  { q := if cleaned = "" then "LEGO" else cleaned, limit := lim,
    sort := none, sortOrder := none }

/-- The upstream search request the mcp.js handler causes, `none` when the
request never reaches `searchEbayEnriched` (which calls `browseSearch`,
which calls `ebayFetch`, unconditionally).  The handler first clamps the
limit itself (line 321) and then `browseSearch` clamps again. -/
def mcpHandlerSearchReq (req : McpRequest) : Option BrowseSearchReq :=
  if req.httpMethod = .OPTIONS then none
  else if req.httpMethod ≠ .POST then none
  else if ¬ strTruthy req.envClientId ∨ ¬ strTruthy req.envClientSecret then none
  else if req.jsonrpc ≠ some "2.0" then none
  else if req.method ≠ some "tools/call" then none
  else if req.paramsName = some "search_ebay" then
    let query := jsOrStr req.argQuery ""
    let limit := clampInt req.argLimit 1 50 25
    some (browseSearchReq query (some (.vNum (limit : Rat))))
  else none

/-! ### part_000 handler (src/unnamed/part_000 lines 102-222) -/

/-- The upstream search request part_000 builds (lines 155-163). -/
structure P0SearchReq where
  q : String
  limit : Option Rat
  offset : Option Rat
  sort : Option String
  sortOrder : Option String
deriving DecidableEq

/-- JS `toUpperCase()` (ASCII), characterwise on the character list. -/
def jsToUpper (s : String) : String := String.mk (s.data.map Char.toUpper)

/-- The sort mapping of part_000 lines 128 and 142-153: UI sort name to
the upstream `sort` / `sortOrder` parameters (`none` = omitted). -/
def p0SortParams (sortArg : Option String) : Option String × Option String :=
  let sort := jsToUpper (jsOrStr sortArg "BEST_MATCH")
  if sort = "ENDING_SOON" then (some "endingSoonest", none)
  else if sort = "PRICE_DESC" then (some "price", some "DESC")
  else if sort = "PRICE_ASC" then (some "price", some "ASC")
  else (none, none)

structure P0Request where
  httpMethod : HttpMethod
  id : Option JVal
  method : Option String
  paramsName : Option String
  argQuery : Option String
  argLimit : Option JVal
  argOffset : Option JVal
  argSort : Option String
deriving DecidableEq

/-- `id ?? 1` as used by part_000's `mcpOk`/error bodies. -/
def idOrOne (id : Option JVal) : JVal :=
  match id with
  | none => .vNum 1
  | some .vNull => .vNum 1
  | some v => v

/-- Outcome of the downstream part of part_000's search branch, abstracting
the token refresh and the upstream search response: either the token call
threw, or the upstream answered non-success, or it succeeded and the
simplified item payload serializes to `text`. -/
inductive P0Downstream where
  | tokenError (msg : String)
  | searchHttpError (status : Nat) (text : String)
  | okItems (text : String)
deriving DecidableEq

inductive P0Body where
  | errObj (msg : String)
  | rpcErrMsg (id : JVal) (msg : String)
  | mcpOkText (id : JVal) (text : String)
deriving DecidableEq

structure P0Out where
  status : Nat
  body : P0Body
  /-- The upstream search request issued, `none` when no search call was
  made. -/
  searchReq : Option P0SearchReq
deriving DecidableEq

/-- The part_000 `handler`: returns the HTTP status, the body, and the
upstream search request it performed (if any). -/
def p0Handler (req : P0Request) (down : P0Downstream) : P0Out :=
  if req.httpMethod ≠ .POST then ⟨405, .errObj "Method not allowed", none⟩
  else
    let id := idOrOne req.id
    if req.method ≠ some "tools/call" ∨ req.paramsName ≠ some "search_ebay" then
      ⟨400, .rpcErrMsg id "Unsupported method/tool", none⟩
    else
      let query := jsTrim (jsOrStr req.argQuery "")
      if query = "" then ⟨200, .mcpOkText id "[]", none⟩
      else
        let limit := jsMin (jsMax (numOrNullish req.argLimit 50) (some 1)) (some 200)
        let offset := jsMax (numOrNullish req.argOffset 0) (some 0)
        let sortPair := p0SortParams req.argSort
        let sreq : P0SearchReq :=
          { q := query, limit := limit, offset := offset
            sort := sortPair.1, sortOrder := sortPair.2 }
        match down with
        -- the catch-all at part_000 line 216 hardcodes `id: 1`
        | .tokenError msg => ⟨500, .rpcErrMsg (.vNum 1) msg, none⟩
        | .searchHttpError status text =>
          ⟨status, .rpcErrMsg id ("eBay error (" ++ toString status ++ "): " ++ text), some sreq⟩
        | .okItems text => ⟨200, .mcpOkText id text, some sreq⟩

/-! ### Bounded concurrency executor (`mapWithConcurrency`, mcp.js
lines 181-196)

The JS event loop interleaves the `Math.min(concurrency, arr.length)`
workers only at `await` points; between awaits a worker's
`const i = idx++` and the loop test run atomically.  We model each worker
as a small state machine: `idle` at the top of its `while` loop, `wait i`
while its call `fn(arr[i], i)` is in flight, `done` after the loop exits.
A scheduler step picks a worker index: an idle worker atomically reads and
increments the shared `idx` and starts `fn` (or exits the loop), a waiting
worker's `fn` completes and its result is written to `out[i]`.  A run is a
fold over an arbitrary schedule, so every interleaving is a schedule. -/

inductive WSt where
  | idle
  | wait (i : Nat)
  | done
deriving DecidableEq

structure MwcState (β : Type) where
  idx : Nat
  out : List (Option β)
  workers : List WSt

/-- One scheduler step: let worker `k` run to its next suspension point.
`g i` is the value `fn(arr[i], i)` eventually produces. -/
def mwcStep {β : Type} (g : Nat → β) (n : Nat) (s : MwcState β) (k : Nat) :
    MwcState β :=
  match s.workers[k]? with
  | some .idle =>
    if s.idx < n then
      ⟨s.idx + 1, s.out, s.workers.set k (.wait s.idx)⟩
    else
      ⟨s.idx, s.out, s.workers.set k .done⟩
  | some (.wait i) => ⟨s.idx, s.out.set i (some (g i)), s.workers.set k .idle⟩
  | _ => s

/-- Run the workers along a schedule. -/
def mwcRun {β : Type} (g : Nat → β) (n : Nat) (s : MwcState β)
    (sched : List Nat) : MwcState β :=
  sched.foldl (mwcStep g n) s

/-- Initial state: shared index 0, all `arr.length` output slots empty,
`min concurrency arr.length` workers at the top of their loops. -/
def mwcInit (β : Type) (n w : Nat) : MwcState β :=
  ⟨0, List.replicate n none, List.replicate w .idle⟩

/-- Number of `fn` invocations in flight. -/
def inflight {β : Type} (s : MwcState β) : Nat :=
  (s.workers.filter fun w => match w with | .wait _ => true | _ => false).length

/-- All workers have exited their loops (`Promise.all` resolved). -/
def allDone {β : Type} (s : MwcState β) : Bool :=
  s.workers.all fun w => match w with | .done => true | _ => false

/-- `mapWithConcurrency(arr, concurrency, fn)` as the transition system
above, instantiated the way mcp.js builds it. -/
def mapWithConcurrency {α β : Type} [Inhabited α] (arr : List α) (concurrency : Nat)
    (fn : α → Nat → β) (sched : List Nat) : MwcState β :=
  mwcRun (fun i => fn (arr.getD i default) i) arr.length
    (mwcInit β arr.length (min concurrency arr.length)) sched

/-- The state invariant maintained by every step. -/
def MwcInv {β : Type} (g : Nat → β) (n w : Nat) (s : MwcState β) : Prop :=
  s.out.length = n ∧
  s.workers.length = w ∧
  s.idx ≤ n ∧
  (∀ i : Nat, i < s.idx → s.out[i]? = some (some (g i)) ∨ ∃ k : Nat, s.workers[k]? = some (WSt.wait i)) ∧
  (∀ i : Nat, s.idx ≤ i → i < n → s.out[i]? = some none) ∧
  (∀ k i : Nat, s.workers[k]? = some (WSt.wait i) → i < s.idx) ∧
  (∀ k : Nat, s.workers[k]? = some WSt.done → s.idx = n)

theorem mwcInv_init {β : Type} (g : Nat → β) (n w : Nat) :
    MwcInv g n w (mwcInit β n w) := by
  unfold MwcInv mwcInit
  dsimp only
  refine ⟨List.length_replicate n none, List.length_replicate w WSt.idle, Nat.zero_le n,
    ?_, ?_, ?_, ?_⟩
  · intro i hi; omega
  · intro i _ hi
    simp [List.getElem?_replicate, hi]
  · intro k i hk
    rw [List.getElem?_replicate] at hk
    split at hk <;> simp_all
  · intro k hk
    rw [List.getElem?_replicate] at hk
    split at hk <;> simp_all

theorem mwcInv_step {β : Type} {g : Nat → β} {n w : Nat} {s : MwcState β} (k : Nat)
    (h : MwcInv g n w s) : MwcInv g n w (mwcStep g n s k) := by
  obtain ⟨hol, hwl, hidx, hfill, hempty, hwlt, hdone⟩ := h
  have hkl : ∀ {x : WSt}, s.workers[k]? = some x → k < s.workers.length :=
    fun hx => (List.getElem?_eq_some.mp hx).1
  unfold mwcStep
  cases hk : s.workers[k]? with
  | none => exact ⟨hol, hwl, hidx, hfill, hempty, hwlt, hdone⟩
  | some wst =>
    cases wst with
    | idle =>
      by_cases hlt : s.idx < n
      · simp only [hlt, if_true]
        unfold MwcInv
        dsimp only
        refine ⟨hol, by rw [List.length_set]; exact hwl, hlt, ?_, ?_, ?_, ?_⟩
        · intro i hi
          rcases Nat.lt_succ_iff_lt_or_eq.mp hi with hi' | hi'
          · rcases hfill i hi' with hfull | ⟨k', hk'⟩
            · exact Or.inl hfull
            · refine Or.inr ⟨k', ?_⟩
              rcases eq_or_ne k' k with rfl | hne
              · rw [hk] at hk'; cases hk'
              · rwa [List.getElem?_set_ne (Ne.symm hne)]
          · subst hi'
            exact Or.inr ⟨k, by rw [List.getElem?_set_eq_of_lt _ (hkl hk)]⟩
        · intro i hi hin
          exact hempty i (by omega) hin
        · intro k' i hk'
          rcases eq_or_ne k' k with rfl | hne
          · rw [List.getElem?_set_eq_of_lt _ (hkl hk)] at hk'
            cases hk'; omega
          · rw [List.getElem?_set_ne (Ne.symm hne)] at hk'
            exact Nat.lt_succ_of_lt (hwlt k' i hk')
        · intro k' hk'
          rcases eq_or_ne k' k with rfl | hne
          · rw [List.getElem?_set_eq_of_lt _ (hkl hk)] at hk'; cases hk'
          · rw [List.getElem?_set_ne (Ne.symm hne)] at hk'
            exact absurd (hdone k' hk' ▸ hlt) (lt_irrefl n)
      · simp only [hlt, if_false]
        unfold MwcInv
        dsimp only
        have hin : s.idx = n := by omega
        refine ⟨hol, by rw [List.length_set]; exact hwl, hidx, ?_, hempty, ?_, ?_⟩
        · intro i hi
          rcases hfill i hi with hfull | ⟨k', hk'⟩
          · exact Or.inl hfull
          · refine Or.inr ⟨k', ?_⟩
            rcases eq_or_ne k' k with rfl | hne
            · rw [hk] at hk'; cases hk'
            · rwa [List.getElem?_set_ne (Ne.symm hne)]
        · intro k' i hk'
          rcases eq_or_ne k' k with rfl | hne
          · rw [List.getElem?_set_eq_of_lt _ (hkl hk)] at hk'; cases hk'
          · rw [List.getElem?_set_ne (Ne.symm hne)] at hk'
            exact hwlt k' i hk'
        · intro k' hk'
          exact hin
    | wait i =>
      have hi : i < s.idx := hwlt k i hk
      unfold MwcInv
      dsimp only
      refine ⟨by rw [List.length_set]; exact hol, by rw [List.length_set]; exact hwl,
        hidx, ?_, ?_, ?_, ?_⟩
      · intro i' hi'
        rcases eq_or_ne i' i with rfl | hne
        · exact Or.inl (by rw [List.getElem?_set_eq_of_lt _ (by omega : i' < s.out.length)])
        · rcases hfill i' hi' with hfull | ⟨k', hk'⟩
          · exact Or.inl (by rwa [List.getElem?_set_ne (Ne.symm hne)])
          · rcases eq_or_ne k' k with rfl | hkne
            · rw [hk] at hk'; cases hk'; exact absurd rfl hne
            · exact Or.inr ⟨k', by rwa [List.getElem?_set_ne (Ne.symm hkne)]⟩
      · intro i' hi' hin
        rw [List.getElem?_set_ne (by omega : i ≠ i')]
        exact hempty i' hi' hin
      · intro k' i' hk'
        rcases eq_or_ne k' k with rfl | hne
        · rw [List.getElem?_set_eq_of_lt _ (hkl hk)] at hk'; cases hk'
        · rw [List.getElem?_set_ne (Ne.symm hne)] at hk'
          exact hwlt k' i' hk'
      · intro k' hk'
        rcases eq_or_ne k' k with rfl | hne
        · rw [List.getElem?_set_eq_of_lt _ (hkl hk)] at hk'; cases hk'
        · rw [List.getElem?_set_ne (Ne.symm hne)] at hk'
          exact hdone k' hk'
    | done => exact ⟨hol, hwl, hidx, hfill, hempty, hwlt, hdone⟩

theorem mwcInv_run {β : Type} {g : Nat → β} {n w : Nat} (sched : List Nat)
    {s : MwcState β} (h : MwcInv g n w s) : MwcInv g n w (mwcRun g n s sched) := by
  induction sched generalizing s with
  | nil => exact h
  | cons k ks ih => exact ih (mwcInv_step k h)

theorem mwc_allDone_out {β : Type} {g : Nat → β} {n w : Nat} {s : MwcState β}
    (hinv : MwcInv g n w s) (hw : 1 ≤ w ∨ n = 0) (hdone : allDone s = true)
    (i : Nat) (hi : i < n) : s.out[i]? = some (some (g i)) := by
  obtain ⟨hol, hwl, hidx, hfill, hempty, hwlt, hdn⟩ := hinv
  have hworker : ∀ k : Nat, ∀ x : WSt, s.workers[k]? = some x → x = WSt.done := by
    intro k x hk
    have hx : x ∈ s.workers := by
      obtain ⟨hlt, rfl⟩ := List.getElem?_eq_some.mp hk
      exact List.getElem_mem hlt
    have := List.all_eq_true.mp hdone x hx
    cases x <;> simp_all
  have hn : s.idx = n := by
    rcases hw with hw | hw
    · have hlen : 0 < s.workers.length := by omega
      obtain ⟨x, hx⟩ : ∃ x : WSt, s.workers[0]? = some x :=
        ⟨_, List.getElem?_eq_getElem hlen⟩
      have := hworker 0 x hx
      subst this
      exact hdn 0 hx
    · omega
  rcases hfill i (by omega) with hfull | ⟨k, hk⟩
  · exact hfull
  · have := hworker k _ hk
    cases this

/-- Claim C4 core: for every input list, concurrency bound and worker
function, along every schedule the output list keeps the input length and
at most `concurrency` calls are in flight; when all workers have finished
(`Promise.all` resolved), slot `i` holds exactly `fn(arr[i], i)`. -/
theorem mapWithConcurrency_spec {α β : Type} [Inhabited α] (arr : List α)
    (c : Nat) (fn : α → Nat → β) (hc : 1 ≤ c) (sched : List Nat) :
    (mapWithConcurrency arr c fn sched).out.length = arr.length ∧
    inflight (mapWithConcurrency arr c fn sched) ≤ c ∧
    (allDone (mapWithConcurrency arr c fn sched) = true →
      ∀ i : Nat, ∀ h : i < arr.length,
        (mapWithConcurrency arr c fn sched).out[i]? = some (some (fn arr[i] i))) := by
  have hinv : MwcInv (fun i => fn (arr.getD i default) i) arr.length
      (min c arr.length) (mapWithConcurrency arr c fn sched) :=
    mwcInv_run sched (mwcInv_init _ _ _)
  have hol := hinv.1
  have hwl := hinv.2.1
  refine ⟨hol, ?_, ?_⟩
  · calc inflight (mapWithConcurrency arr c fn sched)
        ≤ (mapWithConcurrency arr c fn sched).workers.length :=
          List.length_filter_le _ _
      _ = min c arr.length := hwl
      _ ≤ c := Nat.min_le_left _ _
  · intro hdone i h
    have hw : 1 ≤ min c arr.length ∨ arr.length = 0 := by omega
    have := mwc_allDone_out hinv hw hdone i h
    rwa [List.getD_eq_getElem arr default h] at this

/-! ### Enriched search pipeline (`searchEbayEnriched`, mcp.js
lines 203-278)

A summary or detail record is flattened to the fields the merge step
reads; an optional-chaining path like `s?.shippingOptions?.[0]?.shippingCost?.value`
becomes one optional field that is `none` whenever any link of the chain
is missing.  `encodeURIComponent` is taken as a parameter `enc` (an
runtime primitive the merge only pipes a title through). -/

structure Summary where
  itemId : Option String
  legacyItemId : Option JVal
  title : Option JVal
  itemWebUrl : Option JVal
  imageUrl : Option JVal
  thumbnailImageUrl : Option JVal
  priceValue : Option JVal
  shippingCostValue : Option JVal
  sellerUsername : Option JVal
  sellerFeedbackPercentage : Option JVal
  itemEndDate : Option JVal
  buyingOptions : Option (List String)
deriving DecidableEq

structure Detail where
  legacyItemId : Option JVal
  title : Option JVal
  itemWebUrl : Option JVal
  imageUrl : Option JVal
  primaryImageUrl : Option JVal
  priceValue : Option JVal
  shippingCostValue : Option JVal
  sellerUsername : Option JVal
  sellerFeedbackPercentage : Option JVal
  itemEndDate : Option JVal
deriving DecidableEq

/-- The normalized output record (mcp.js lines 265-276). -/
structure NormItem where
  itemId : JVal
  title : JVal
  price : Rat
  shipping : Rat
  seller : JVal
  sellerFeedbackPercent : Rat
  itemWebUrl : JVal
  image : JVal
  itemEndDate : JVal
  buyingOptions : List String
deriving DecidableEq

/-- String interpolation of a `JVal` into a template literal.  Decimal
formatting of a numeric id is approximated by the `Rat` printer; no claim
inspects a URL built from a numeric id. -/
def jsValTemplate (v : JVal) : String :=
  match v with
  | .vStr s => s
  | .vNull => "null"
  | .vNum q => toString q

/-- `const rid = s?.itemId || null` (mcp.js line 225): the summary's id if
it is a nonempty string. -/
def ridOf (s : Summary) : Option String :=
  match s.itemId with
  | some r => if r = "" then none else some r
  | none => none

/-- The body of the `summaries.map` at mcp.js lines 224-277: merge one
summary with its (possibly missing) detail record. -/
def mergeItem (enc : String → String) (s : Summary) (d : Option Detail) : NormItem :=
  let rid := ridOf s
  let legacyId := pickFirst [d.bind Detail.legacyItemId, s.legacyItemId, some .vNull]
  let title := pickFirst [d.bind Detail.title, s.title, some (.vStr "Untitled listing")]
  let itemWebUrl := pickFirst
    [d.bind Detail.itemWebUrl, s.itemWebUrl,
      if jvalTruthy (some legacyId) then
        some (.vStr ("https://www.ebay.com/itm/" ++ jsValTemplate legacyId))
      else some .vNull,
      some (.vStr ("https://www.ebay.com/sch/i.html?_nkw=" ++ enc (jsValTemplate title)))]
  let imageUrl := pickFirst
    [d.bind Detail.imageUrl, d.bind Detail.primaryImageUrl, s.imageUrl,
      s.thumbnailImageUrl, some .vNull]
  let price :=
    (jsOrNum (jsOrNum (toNumNaN (d.bind Detail.priceValue)) (toNumNaN s.priceValue))
      (some 0)).getD 0
  let shipping :=
    (jsOrNum (jsOrNum (toNumNaN (d.bind Detail.shippingCostValue))
      (toNumNaN s.shippingCostValue)) (some 0)).getD 0
  let seller := pickFirst [d.bind Detail.sellerUsername, s.sellerUsername,
    some (.vStr "eBay Seller")]
  let sellerFeedbackPercent :=
    (jsOrNum (jsOrNum (toNumNaN (d.bind Detail.sellerFeedbackPercentage))
      (toNumNaN s.sellerFeedbackPercentage)) (some 99)).getD 0
  { itemId := if jvalTruthy (some legacyId) then legacyId
      else match rid with
        | some r => .vStr r
        | none => .vNull
    title := title
    price := price
    shipping := shipping
    seller := seller
    sellerFeedbackPercent := sellerFeedbackPercent
    itemWebUrl := itemWebUrl
    image := if jvalTruthy (some imageUrl) then imageUrl else .vNull
    itemEndDate := pickFirst [d.bind Detail.itemEndDate, s.itemEndDate, some .vNull]
    buyingOptions := s.buyingOptions.getD [] }

/-- A per-element result of the detail fan-out (mcp.js lines 211-218):
the `try`/`catch` inside the mapped function turns a fetch failure into an
`{ ok: false, rid, error }` record instead of letting it propagate. -/
inductive DetailResult where
  | ok (rid : String) (d : Detail)
  | err (rid : String) (error : String)
deriving DecidableEq

/-- `summaries.map((s) => s?.itemId).filter(Boolean)` (line 209). -/
def restIdsOf (summaries : List Summary) : List String :=
  summaries.filterMap (fun s => match s.itemId with
    | some r => if r = "" then none else some r
    | none => none)

/-- The detail fetches, with per-element capture.  The network call is the
oracle `fetch`; by `mapWithConcurrency_spec` the fan-out preserves
positions, so the result list is the positionwise image. -/
def detailResults (fetch : String → Except String Detail) (rids : List String) :
    List DetailResult :=
  rids.map (fun rid => match fetch rid with
    | .ok d => .ok rid d
    | .error e => .err rid e)

/-- `new Map(details.filter((x) => x.ok && x.d).map((x) => [x.rid, x.d]))`
(lines 220-222) as its entry list; the fetched detail is always an object,
so the `x.d` truthiness test is subsumed by `x.ok`. -/
def detailMapOf (results : List DetailResult) : List (String × Detail) :=
  results.filterMap (fun r => match r with
    | .ok rid d => some (rid, d)
    | .err _ _ => none)

/-- `Map.get`: for duplicate keys the last `set` wins. -/
def mapGetLast (entries : List (String × Detail)) (k : String) : Option Detail :=
  ((entries.filter (fun p => p.1 = k)).getLast?).map (fun p => p.2)

/-- `searchEbayEnriched` (without the surrounding HTTP), from the summary
batch the upstream search returned and the detail-fetch oracle. -/
def searchEbayEnriched (enc : String → String) (summaries : List Summary)
    (fetch : String → Except String Detail) : List NormItem :=
  let entries := detailMapOf (detailResults fetch (restIdsOf summaries))
  summaries.map (fun s =>
    mergeItem enc s ((ridOf s).bind (fun r => mapGetLast entries r)))

/-! ### Helper lemmas -/

theorem jsOrNum_truthy (a b : Option Rat) (h : numTruthy a = true) :
    jsOrNum a b = a := by
  simp [jsOrNum, h]

theorem jsOrNum_falsy (a b : Option Rat) (h : numTruthy a = false) :
    jsOrNum a b = b := by
  simp [jsOrNum, h]

theorem numTruthy_none : numTruthy none = false := rfl

theorem numTruthy_val (q : Rat) : numTruthy (some q) = decide (q ≠ 0) := rfl

theorem wsTokensAux_tokens (n : Nat) (cs : List Char) (t : List Char)
    (ht : t ∈ wsTokensAux n cs) :
    ∃ c : Char, ∃ cs2 : List Char, t = c :: cs2 ∧ isWsChar c = false := by
  induction n generalizing cs with
  | zero => simp [wsTokensAux] at ht
  | succ n ih =>
    cases cs with
    | nil => simp [wsTokensAux] at ht
    | cons c cs =>
      simp only [wsTokensAux] at ht
      by_cases hw : isWsChar c
      · rw [if_pos hw] at ht
        exact ih _ ht
      · rw [if_neg hw] at ht
        rcases List.mem_cons.mp ht with rfl | hmem
        · exact ⟨c, _, rfl, by simpa using hw⟩
        · exact ih _ hmem

theorem charTrim_cons_ne_nil (c : Char) (l : List Char) (hc : isWsChar c = false) :
    charTrim (c :: l) ≠ [] := by
  unfold charTrim
  rw [List.dropWhile_cons]
  rw [hc]
  simp only [Bool.false_eq_true, if_false]
  intro hcon
  rw [List.reverse_eq_nil_iff, List.dropWhile_eq_nil_iff] at hcon
  have : isWsChar c = true := hcon c (by simp)
  rw [hc] at this
  cases this

theorem intercalate_cons_shape (c : Char) (cs2 : List Char)
    (rest : List (List Char)) :
    ∃ l : List Char, List.intercalate [' '] ((c :: cs2) :: rest) = c :: l := by
  cases rest with
  | nil => exact ⟨cs2, by simp [List.intercalate]⟩
  | cons r rs =>
    refine ⟨cs2 ++ [' '] ++ List.intercalate [' '] (r :: rs), ?_⟩
    simp [List.intercalate, List.intersperse]

/-- If some token survives the filter, the joined-and-trimmed first stage
is nonempty. -/
theorem charTrim_join_kept_ne_nil (s : List Char) (t : List Char)
    (rest : List (List Char))
    (hf : (wsTokens s).filter keepToken = t :: rest) :
    charTrim (List.intercalate [' '] ((wsTokens s).filter keepToken)) ≠ [] := by
  have hmem : t ∈ (wsTokens s).filter keepToken := by rw [hf]; exact List.mem_cons_self t rest
  have hmem2 : t ∈ wsTokens s := List.mem_of_mem_filter hmem
  obtain ⟨c, cs2, rfl, hcws⟩ := wsTokensAux_tokens _ _ _ hmem2
  rw [hf]
  obtain ⟨l, hl⟩ := intercalate_cons_shape c cs2 rest
  rw [hl]
  exact charTrim_cons_ne_nil c l hcws

/-- Claim C6 (amended): the sanitizer yields the empty string exactly when
no whitespace-separated token of the trimmed input survives the
operator/exclusion filter AND stripping the dash-runs from the trimmed
input leaves only whitespace.  In particular the final fallback is the
empty string, not the raw input. -/
theorem sanitizeBrowseQuery_empty_iff (raw : String) :
    sanitizeBrowseQuery raw = "" ↔
      ((wsTokens (charTrim raw.data)).filter keepToken = [] ∧
        charTrim (stripDashRuns (charTrim raw.data)) = []) := by
  unfold sanitizeBrowseQuery
  by_cases hs : charTrim raw.data = []
  · rw [if_pos hs, hs]
    simp [wsTokens, wsTokensAux, stripDashRuns, stripDashAux, charTrim]
  · rw [if_neg hs]
    dsimp only
    constructor
    · intro h
      by_cases hout : charTrim (List.intercalate [' ']
          ((wsTokens (charTrim raw.data)).filter keepToken)) = []
      · rw [if_neg (by simpa using hout)] at h
        have hkept : (wsTokens (charTrim raw.data)).filter keepToken = [] := by
          cases hfk : (wsTokens (charTrim raw.data)).filter keepToken with
          | nil => rfl
          | cons t rest => exact absurd hout (charTrim_join_kept_ne_nil _ t rest hfk)
        refine ⟨hkept, ?_⟩
        by_cases hstr : charTrim (stripDashRuns (charTrim raw.data)) = []
        · exact hstr
        · rw [if_pos (by simpa using hstr)] at h
          rw [String.ext_iff] at h
          exact absurd h hstr
      · exfalso
        rw [if_pos (by simpa using hout)] at h
        rw [String.ext_iff] at h
        exact hout h
    · rintro ⟨hkept, hstr⟩
      rw [hkept]
      have hjoin : charTrim (List.intercalate [' '] ([] : List (List Char))) = [] := by
        simp [List.intercalate, charTrim]
      rw [hjoin]
      simp [hstr]

/-- Claim C6 counterexample: the input consisting of one exclusion-marked
token is neither empty nor whitespace-only, yet sanitizes to the empty
string (the code's final fallback is `""`, not the raw input). -/
theorem sanitize_counterexample :
    sanitizeBrowseQuery "-lego" = "" ∧ jsTrim "-lego" ≠ "" := by
  constructor
  · decide
  · decide

/-- Claim C7 (amended): only in the part_000 handler is the sort argument
mapped to the upstream sort parameters as specified - `ENDING_SOON` to
`endingSoonest` without an order, `PRICE_ASC`/`PRICE_DESC` to `price`
with explicit `ASC`/`DESC`, `BEST_MATCH` (or an absent sort) to no sort
parameter at all - and every upstream request it issues carries exactly
the mapped parameters; the mcp.js handler ignores the sort argument
entirely, so every upstream search request it causes omits the sort
parameters for every sort value, `ENDING_SOON` included. -/
theorem p0_sort_mapping :
    p0SortParams (some "ENDING_SOON") = (some "endingSoonest", none) ∧
    p0SortParams (some "PRICE_ASC") = (some "price", some "ASC") ∧
    p0SortParams (some "PRICE_DESC") = (some "price", some "DESC") ∧
    p0SortParams (some "BEST_MATCH") = (none, none) ∧
    p0SortParams none = (none, none) ∧
    (∀ (req : McpRequest) (sreq : BrowseSearchReq),
      mcpHandlerSearchReq req = some sreq →
        sreq.sort = none ∧ sreq.sortOrder = none) ∧
    (∀ (req : P0Request) (down : P0Downstream) (sreq : P0SearchReq),
      (p0Handler req down).searchReq = some sreq →
        sreq.sort = (p0SortParams req.argSort).1 ∧
        sreq.sortOrder = (p0SortParams req.argSort).2) := by
  refine ⟨by decide, by decide, by decide, by decide, by decide, ?_, ?_⟩
  · intro req sreq h
    unfold mcpHandlerSearchReq at h
    split at h
    · cases h
    · split at h
      · cases h
      · split at h
        · cases h
        · split at h
          · cases h
          · split at h
            · cases h
            · split at h
              · injection h with h
                subst h
                exact ⟨rfl, rfl⟩
              · cases h
  intro req down sreq h
  cases down with
  | tokenError msg =>
    unfold p0Handler at h
    split at h
    · simp at h
    · split at h
      · simp at h
      · dsimp only at h
        split at h
        · simp at h
        · simp at h
  | searchHttpError status text =>
    unfold p0Handler at h
    split at h
    · simp at h
    · split at h
      · simp at h
      · dsimp only at h
        split at h
        · simp at h
        · injection h with h
          subst h
          exact ⟨rfl, rfl⟩
  | okItems text =>
    unfold p0Handler at h
    split at h
    · simp at h
    · split at h
      · simp at h
      · dsimp only at h
        split at h
        · simp at h
        · injection h with h
          subst h
          exact ⟨rfl, rfl⟩

/-- Claim C7 counterexample: a well-formed mcp.js `search_ebay` call
asking for `ENDING_SOON` still produces an upstream search request with
no sort parameter at all, contradicting "ENDING_SOON sends the
earliest-end-first sort parameter" for every search invocation. -/
theorem mcp_sort_counterexample :
    mcpHandlerSearchReq
        ⟨.POST, some "cid", some "csec", some "2.0", none, some "tools/call",
          some "search_ebay", some "lego", none, some "ENDING_SOON"⟩ =
      some ⟨"lego", 25, none, none⟩ := by
  decide

/-! ### Claims C1 and C3: dispatcher behavior -/

theorem jsOrStr_some_empty (q : String) : jsOrStr (some q) "" = q := by
  show (if q = "" then "" else q) = q
  split
  · simp_all
  · rfl

theorem jsTrim_empty_data {q : String} (hq : jsTrim q = "") :
    charTrim q.data = [] := by
  unfold jsTrim at hq
  rw [String.ext_iff] at hq
  exact hq

theorem clampInt_bounds (x : Option JVal) : 1 ≤ clampInt x 1 50 25 ∧ clampInt x 1 50 25 ≤ 50 := by
  unfold clampInt
  cases h : jsToNumber x with
  | none => dsimp only; omega
  | some q => dsimp only; omega

theorem clampInt_vNum_int (l : Int) (h1 : 1 ≤ l) (h2 : l ≤ 50) :
    clampInt (some (.vNum (l : Rat))) 1 50 25 = l := by
  unfold clampInt jsToNumber
  dsimp only
  rw [Int.floor_intCast]
  omega

/-- Claim C1 (amended): an empty or whitespace-only query short-circuits
to an empty item list with no upstream call only in the part_000 handler;
the mcp.js pipeline instead substitutes the default query `LEGO` and
always issues the upstream search call. -/
theorem emptyQuery_behavior (q : String) (hq : jsTrim q = "") :
    (∀ (req : P0Request) (down : P0Downstream),
        req.httpMethod = .POST → req.method = some "tools/call" →
        req.paramsName = some "search_ebay" → req.argQuery = some q →
        p0Handler req down = ⟨200, .mcpOkText (idOrOne req.id) "[]", none⟩) ∧
    (∀ (req : McpRequest),
        req.httpMethod = .POST → strTruthy req.envClientId = true →
        strTruthy req.envClientSecret = true → req.jsonrpc = some "2.0" →
        req.method = some "tools/call" → req.paramsName = some "search_ebay" →
        req.argQuery = some q →
        mcpHandlerSearchReq req =
          some ⟨"LEGO", clampInt req.argLimit 1 50 25, none, none⟩) := by
  constructor
  · intro req down h1 h2 h3 h4
    unfold p0Handler
    rw [if_neg (by simp [h1])]
    rw [if_neg (by simp [h2, h3])]
    rw [h4, jsOrStr_some_empty, if_pos hq]
  · intro req h1 h2 h3 h4 h5 h6 h7
    unfold mcpHandlerSearchReq
    rw [if_neg (by simp [h1]), if_neg (by simp [h1]),
      if_neg (by simp [h2, h3]), if_neg (by simp [h4]),
      if_neg (by simp [h5]), if_pos h6]
    dsimp only
    rw [h7, jsOrStr_some_empty]
    unfold browseSearchReq
    dsimp only
    have hsan : sanitizeBrowseQuery q = "" := by
      unfold sanitizeBrowseQuery
      rw [if_pos (jsTrim_empty_data hq)]
    rw [hsan]
    rw [if_pos rfl]
    obtain ⟨hb1, hb2⟩ := clampInt_bounds req.argLimit
    rw [clampInt_vNum_int _ hb1 hb2]

/-- Claim C1 counterexample: a well-formed `search_ebay` call with the
empty-string query still makes the mcp.js pipeline issue an upstream
search request (with the substituted default query `LEGO`), contradicting
"performs no call to the upstream search endpoint". -/
theorem mcp_emptyQuery_counterexample :
    mcpHandlerSearchReq
        ⟨.POST, some "cid", some "csec", some "2.0", none,
          some "tools/call", some "search_ebay", some "", none, none⟩ =
      some ⟨"LEGO", 25, none, none⟩ := by
  decide

/-- Claim C3 (amended): a request whose method is not `tools/call`, or a
`tools/call` naming an unknown tool, is answered by the mcp.js dispatcher
with a JSON-RPC error object carrying code `-32601` but with HTTP status
400 (not a success status); the part_000 dispatcher likewise answers 400,
with a code-less `"Unsupported method/tool"` error object. -/
theorem unknown_method_behavior :
    (∀ (req : McpRequest) (pipeline : Except String String),
        req.httpMethod = .POST → strTruthy req.envClientId = true →
        strTruthy req.envClientSecret = true → req.jsonrpc = some "2.0" →
        req.method ≠ some "tools/call" →
        mcpHandler req pipeline = ⟨400, .rpcErr req.id (-32601) "Invalid method"⟩) ∧
    (∀ (req : McpRequest) (pipeline : Except String String),
        req.httpMethod = .POST → strTruthy req.envClientId = true →
        strTruthy req.envClientSecret = true → req.jsonrpc = some "2.0" →
        req.method = some "tools/call" → req.paramsName ≠ some "search_ebay" →
        mcpHandler req pipeline =
          ⟨400, .rpcErr req.id (-32601) ("Unknown tool: " ++ toolNameStr req.paramsName)⟩) ∧
    (∀ (req : P0Request) (down : P0Downstream),
        req.httpMethod = .POST →
        (req.method ≠ some "tools/call" ∨ req.paramsName ≠ some "search_ebay") →
        p0Handler req down = ⟨400, .rpcErrMsg (idOrOne req.id) "Unsupported method/tool", none⟩) := by
  refine ⟨?_, ?_, ?_⟩
  · intro req pipeline h1 h2 h3 h4 h5
    unfold mcpHandler
    rw [if_neg (by simp [h1]), if_neg (by simp [h1]),
      if_neg (by simp [h2, h3]), if_neg (by simp [h4]), if_pos h5]
  · intro req pipeline h1 h2 h3 h4 h5 h6
    unfold mcpHandler
    rw [if_neg (by simp [h1]), if_neg (by simp [h1]),
      if_neg (by simp [h2, h3]), if_neg (by simp [h4]),
      if_neg (by simp [h5]), if_neg h6]
  · intro req down h1 h2
    unfold p0Handler
    rw [if_neg (by simp [h1])]
    rw [if_pos h2]

/-- Claim C3 counterexample: a `tools/list` request (method other than
`tools/call`) gets JSON-RPC code `-32601` but HTTP status 400, which is
not a success status. -/
theorem unknown_method_counterexample :
    mcpHandler
        ⟨.POST, some "cid", some "csec", some "2.0", none,
          some "tools/list", none, none, none, none⟩ (.ok "x") =
      ⟨400, .rpcErr none (-32601) "Invalid method"⟩ ∧
    isSuccessStatus 400 = false := by
  constructor
  · decide
  · decide

/-! ### Claims C2 and C8: token cache -/

theorem strTruthy_some {o : Option String} (h : strTruthy o = true) :
    ∃ u : String, o = some u ∧ u ≠ "" := by
  cases o with
  | none => simp [strTruthy] at h
  | some u =>
    simp only [strTruthy, decide_eq_true_eq] at h
    exact ⟨u, rfl, h⟩

/-- Claim C2 (amended): each getter returns a cached token only while its
remaining lifetime exceeds that getter's safety margin - 60 s in the
part_000 getter but only 30 s in the mcp.js getter; in every other
successful call the value handed out is the freshly fetched token. -/
theorem token_margin :
    (∀ (cache : TokenCacheP0) (now now2 : Rat) (ci cs rt : Option String)
        (resp : OAuthResp) (t : String) (st : TokenCacheP0),
      getEbayAccessTokenP0 cache now now2 ci cs rt resp = .ok (t, st) →
        (cache.cachedToken = some t ∧ st = cache ∧
          cache.cachedTokenExpiresAt - now > 60000) ∨
        (resp.bodyParses = true ∧ resp.accessToken = some t ∧
          st.cachedToken = some t)) ∧
    (∀ (cache : TokenCacheMcp) (now : Rat) (ci cs : Option String)
        (resp : OAuthResp) (t : Option String) (st : TokenCacheMcp),
      getAccessTokenMcp cache now ci cs resp = .ok (t, st) →
        (t = cache.accessToken ∧ st = cache ∧
          cache.expiresAtMs - 30000 > now) ∨
        (t = resp.accessToken ∧ st.accessToken = resp.accessToken)) := by
  constructor
  · intro cache now now2 ci cs rt resp t st h
    unfold getEbayAccessTokenP0 at h
    split at h
    · rename_i hcond
      left
      injection h with h
      injection h with h1 h2
      obtain ⟨htok, hmargin⟩ := hcond
      obtain ⟨u, hu, -⟩ := strTruthy_some htok
      rw [hu] at h1
      simp only [Option.getD] at h1
      subst h1
      exact ⟨hu, h2.symm, hmargin⟩
    · split at h
      · cases h
      · split at h
        · cases h
        · split at h
          · cases h
          · right
            injection h with h
            injection h with h1 h2
            rename_i hvalid
            rw [not_or] at hvalid
            obtain ⟨htok, -⟩ := hvalid
            rw [not_not] at htok
            obtain ⟨u, hu, -⟩ := strTruthy_some htok
            unfold p0Token at hu
            by_cases hbp : resp.bodyParses = true
            · rw [if_pos hbp] at hu
              have hpt : p0Token resp = some u := by
                unfold p0Token
                rw [if_pos hbp, hu]
              rw [hpt] at h1
              simp only [Option.getD] at h1
              subst h1
              refine ⟨hbp, hu, ?_⟩
              rw [← h2]
              dsimp only
              simp only [hpt, Option.getD]
            · rw [if_neg hbp] at hu
              cases hu
  · intro cache now ci cs resp t st h
    unfold getAccessTokenMcp at h
    split at h
    · rename_i hcond
      left
      injection h with h
      injection h with h1 h2
      subst h1
      subst h2
      exact ⟨rfl, rfl, hcond.2⟩
    · split at h
      · cases h
      · split at h
        · cases h
        · split at h
          · cases h
          · injection h with h
            injection h with h1 h2
            subst h1
            subst h2
            exact Or.inr ⟨rfl, rfl⟩

/-- Claim C2 counterexample: the mcp.js getter returns a cached token
whose remaining lifetime is only 45 s, below the claimed 60-second safety
margin, without refreshing. -/
theorem token_margin_counterexample :
    getAccessTokenMcp ⟨some "tok", 45000⟩ 0 none none
        ⟨true, 200, true, none, none, ""⟩ =
      .ok (some "tok", ⟨some "tok", 45000⟩) ∧
    (45000 : Rat) - 0 < 60000 := by
  constructor
  · unfold getAccessTokenMcp
    rw [if_pos]
    exact ⟨by decide, by norm_num⟩
  · norm_num

/-- Claim C8 (amended): both getters fail with the auth-config error when
client credentials are missing and with an upstream-auth error when the
OAuth call returns non-success; the part_000 getter additionally fails
with the unexpected-payload error when the (possibly unparsable) body
lacks a truthy `access_token` or a nonzero numeric `expires_in`, and it
never returns or caches a missing or empty token; the mcp.js getter
performs no such payload validation (see the counterexample: a success
response without an `access_token` field is cached and returned as a
missing token). -/
theorem token_errors :
    (∀ (cache : TokenCacheMcp) (now : Rat) (ci cs : Option String)
        (resp : OAuthResp),
      ¬(strTruthy cache.accessToken = true ∧ cache.expiresAtMs - 30000 > now) →
      (strTruthy ci = false ∨ strTruthy cs = false) →
      getAccessTokenMcp cache now ci cs resp =
        .error "Missing EBAY_CLIENT_ID / EBAY_CLIENT_SECRET") ∧
    (∀ (cache : TokenCacheMcp) (now : Rat) (ci cs : Option String)
        (resp : OAuthResp),
      ¬(strTruthy cache.accessToken = true ∧ cache.expiresAtMs - 30000 > now) →
      strTruthy ci = true → strTruthy cs = true → resp.ok = false →
      getAccessTokenMcp cache now ci cs resp =
        .error ("OAuth failed " ++ toString resp.status ++ ": " ++ resp.text)) ∧
    (∀ (cache : TokenCacheP0) (now now2 : Rat) (ci cs rt : Option String)
        (resp : OAuthResp),
      ¬(strTruthy cache.cachedToken = true ∧ cache.cachedTokenExpiresAt - now > 60000) →
      (strTruthy ci = false ∨ strTruthy cs = false ∨ strTruthy rt = false) →
      getEbayAccessTokenP0 cache now now2 ci cs rt resp =
        .error "Missing eBay env vars. Set EBAY_CLIENT_ID, EBAY_CLIENT_SECRET, EBAY_REFRESH_TOKEN.") ∧
    (∀ (cache : TokenCacheP0) (now now2 : Rat) (ci cs rt : Option String)
        (resp : OAuthResp),
      ¬(strTruthy cache.cachedToken = true ∧ cache.cachedTokenExpiresAt - now > 60000) →
      strTruthy ci = true → strTruthy cs = true → strTruthy rt = true →
      resp.ok = false →
      getEbayAccessTokenP0 cache now now2 ci cs rt resp =
        .error ("eBay token refresh failed (" ++ toString resp.status ++ ")")) ∧
    (∀ (cache : TokenCacheP0) (now now2 : Rat) (ci cs rt : Option String)
        (resp : OAuthResp),
      ¬(strTruthy cache.cachedToken = true ∧ cache.cachedTokenExpiresAt - now > 60000) →
      strTruthy ci = true → strTruthy cs = true → strTruthy rt = true →
      resp.ok = true →
      (strTruthy (p0Token resp) = false ∨ numTruthy (p0ExpiresInSec resp) = false) →
      getEbayAccessTokenP0 cache now now2 ci cs rt resp =
        .error "eBay token refresh returned unexpected payload") ∧
    (∀ (cache : TokenCacheP0) (now now2 : Rat) (ci cs rt : Option String)
        (resp : OAuthResp) (t : String) (st : TokenCacheP0),
      getEbayAccessTokenP0 cache now now2 ci cs rt resp = .ok (t, st) →
        t ≠ "" ∧ st.cachedToken = some t) := by
  refine ⟨?_, ?_, ?_, ?_, ?_, ?_⟩
  · intro cache now ci cs resp h1 h2
    unfold getAccessTokenMcp
    rw [if_neg h1, if_pos (by rcases h2 with h | h <;> simp [h])]
  · intro cache now ci cs resp h1 h2 h3 h4
    unfold getAccessTokenMcp
    rw [if_neg h1, if_neg (by simp [h2, h3]), if_pos (by simp [h4])]
  · intro cache now now2 ci cs rt resp h1 h2
    unfold getEbayAccessTokenP0
    rw [if_neg h1, if_pos (by rcases h2 with h | h | h <;> simp [h])]
  · intro cache now now2 ci cs rt resp h1 h2 h3 h4 h5
    unfold getEbayAccessTokenP0
    rw [if_neg h1, if_neg (by simp [h2, h3, h4]), if_pos (by simp [h5])]
  · intro cache now now2 ci cs rt resp h1 h2 h3 h4 h5 h6
    unfold getEbayAccessTokenP0
    rw [if_neg h1, if_neg (by simp [h2, h3, h4]), if_neg (by simp [h5]),
      if_pos (by rcases h6 with h | h <;> simp [h])]
  · intro cache now now2 ci cs rt resp t st h
    unfold getEbayAccessTokenP0 at h
    split at h
    · rename_i hcond
      injection h with h
      injection h with h1 h2
      obtain ⟨htok, -⟩ := hcond
      obtain ⟨u, hu, hune⟩ := strTruthy_some htok
      rw [hu] at h1
      simp only [Option.getD] at h1
      subst h1
      rw [← h2]
      exact ⟨hune, hu⟩
    · split at h
      · cases h
      · split at h
        · cases h
        · split at h
          · cases h
          · injection h with h
            injection h with h1 h2
            rename_i hvalid
            rw [not_or] at hvalid
            obtain ⟨htok, -⟩ := hvalid
            rw [not_not] at htok
            obtain ⟨u, hu, hune⟩ := strTruthy_some htok
            rw [hu] at h1
            simp only [Option.getD] at h1
            subst h1
            rw [← h2]
            refine ⟨hune, ?_⟩
            dsimp only
            simp only [hu, Option.getD]

/-- Claim C8 counterexample: the mcp.js getter, given a success OAuth
response whose JSON body simply lacks the `access_token` field, does not
fail: it caches the missing token and hands it back as the call's result. -/
theorem token_missing_counterexample :
    getAccessTokenMcp ⟨none, 0⟩ 0 (some "cid") (some "csec")
        ⟨true, 200, true, none, none, ""⟩ =
      .ok (none, ⟨none, 7200000⟩) := by
  unfold getAccessTokenMcp
  rw [if_neg (by simp [strTruthy]), if_neg (by simp [strTruthy]),
    if_neg (by simp), if_neg (by simp)]
  have h : (0 : Rat) + toNum none 7200 * 1000 = 7200000 := by
    simp [toNum, jsToNumber]
    norm_num
  simp only [h]

/-! ### Claims C5, C9, C10: pipeline merge and per-element failure -/

theorem mergeItem_price (enc : String → String) (s : Summary) (d : Option Detail) :
    (mergeItem enc s d).price =
      (jsOrNum (jsOrNum (toNumNaN (d.bind Detail.priceValue)) (toNumNaN s.priceValue))
        (some 0)).getD 0 := rfl

theorem mergeItem_shipping (enc : String → String) (s : Summary) (d : Option Detail) :
    (mergeItem enc s d).shipping =
      (jsOrNum (jsOrNum (toNumNaN (d.bind Detail.shippingCostValue))
        (toNumNaN s.shippingCostValue)) (some 0)).getD 0 := rfl

theorem mergeItem_feedback (enc : String → String) (s : Summary) (d : Option Detail) :
    (mergeItem enc s d).sellerFeedbackPercent =
      (jsOrNum (jsOrNum (toNumNaN (d.bind Detail.sellerFeedbackPercentage))
        (toNumNaN s.sellerFeedbackPercentage)) (some 99)).getD 0 := rfl

theorem numTruthy_some {o : Option Rat} (h : numTruthy o = true) :
    ∃ q : Rat, o = some q ∧ q ≠ 0 := by
  cases o with
  | none => simp [numTruthy] at h
  | some q =>
    simp only [numTruthy, decide_eq_true_eq] at h
    exact ⟨q, rfl, h⟩

theorem jsStrToNum_price : jsStrToNum "19.99" = some (19.99 : Rat) := by
  have h1 : charTrim "19.99".data = ['1', '9', '.', '9', '9'] := by decide
  have h2 : decParts ['1', '9', '.', '9', '9'] = some (['1', '9'], ['9', '9']) := by decide
  have h3 : digitsVal ['1', '9'] = 19 := by decide
  have h4 : digitsVal ['9', '9'] = 99 := by decide
  rw [jsStrToNum, h1]
  show parseDecCore ['1', '9', '.', '9', '9'] = some (19.99 : Rat)
  rw [parseDecCore, h2]
  simp only [Option.map]
  rw [partsToRat]
  simp only [h3, h4]
  norm_num

/-- Claim C9 (amended): with a summary price of `"19.99"` and no detail
record the merged price is `19.99`, and shipping defaults to `0` when
absent on both sources; in general a numeric field keeps the current
source's value exactly when it parses to a finite NONZERO number, and
falls through to the next source both when the parse is NaN and when the
parsed value is `0` (JS `||` treats both as falsy). -/
theorem merge_numeric_fallback :
    (∀ (enc : String → String) (s : Summary),
      s.priceValue = some (.vStr "19.99") →
        (mergeItem enc s none).price = 19.99) ∧
    (∀ (enc : String → String) (s : Summary),
      s.shippingCostValue = none →
        (mergeItem enc s none).shipping = 0) ∧
    (∀ (enc : String → String) (s : Summary) (d : Option Detail) (q : Rat),
      toNumNaN (d.bind Detail.priceValue) = some q → q ≠ 0 →
        (mergeItem enc s d).price = q) ∧
    (∀ (enc : String → String) (s : Summary) (d : Option Detail),
      numTruthy (toNumNaN (d.bind Detail.priceValue)) = false →
        (mergeItem enc s d).price = (mergeItem enc s none).price) := by
  refine ⟨?_, ?_, ?_, ?_⟩
  · intro enc s hp
    rw [mergeItem_price]
    have hnone : toNumNaN ((none : Option Detail).bind Detail.priceValue) = none := rfl
    have hsum : toNumNaN s.priceValue = some (19.99 : Rat) := by
      rw [hp]
      show jsStrToNum "19.99" = some (19.99 : Rat)
      exact jsStrToNum_price
    have htr : numTruthy (some (19.99 : Rat)) = true := by
      rw [numTruthy_val, decide_eq_true_eq]
      norm_num
    rw [hnone, hsum, jsOrNum_falsy none (some (19.99 : Rat)) numTruthy_none,
      jsOrNum_truthy (some (19.99 : Rat)) (some 0) htr]
    rfl
  · intro enc s hs
    rw [mergeItem_shipping, hs]
    rfl
  · intro enc s d q hq hqne
    have htr : numTruthy (some q) = true := by
      rw [numTruthy_val, decide_eq_true_eq]
      exact hqne
    rw [mergeItem_price, hq,
      jsOrNum_truthy (some q) (toNumNaN s.priceValue) htr,
      jsOrNum_truthy (some q) (some 0) htr]
    rfl
  · intro enc s d hfalsy
    rw [mergeItem_price, mergeItem_price,
      jsOrNum_falsy (toNumNaN (d.bind Detail.priceValue)) (toNumNaN s.priceValue) hfalsy]
    have hnone : toNumNaN ((none : Option Detail).bind Detail.priceValue) = none := rfl
    rw [hnone, jsOrNum_falsy none (toNumNaN s.priceValue) numTruthy_none]

/-- Claim C9 counterexample: a detail price that parses to the finite
number `0` is NOT kept - the merge falls through to the summary price
(5), contradicting "falls through exactly when the current source fails
to parse as a finite number". -/
theorem merge_zero_price_counterexample :
    (mergeItem id
        ⟨none, none, none, none, none, none, some (.vNum 5), none, none, none, none, none⟩
        (some ⟨none, none, none, none, none, some (.vNum 0), none, none, none, none⟩)).price = 5 ∧
    jsToNumber (some (.vNum 0)) = some 0 := by
  constructor
  · rw [mergeItem_price]
    show (jsOrNum (jsOrNum (some 0) (some 5)) (some 0)).getD 0 = 5
    have h0 : numTruthy (some (0 : Rat)) = false := by
      rw [numTruthy_val]
      simp
    have h5 : numTruthy (some (5 : Rat)) = true := by
      rw [numTruthy_val, decide_eq_true_eq]
      norm_num
    rw [jsOrNum_falsy (some 0) (some 5) h0, jsOrNum_truthy (some 5) (some 0) h5]
    rfl
  · rfl

/-- Claim C10: the numeric fallback chains treat a source value that
parses to the finite number 0 the same as a missing one: the merged
`sellerFeedbackPercent` is never 0 (two zero feedback sources yield the
default 99), and a detail price of 0 falls through to the summary price
chain exactly as if the detail record were absent. -/
theorem merge_zero_treated_as_missing :
    (∀ (enc : String → String) (s : Summary) (d : Option Detail),
      (mergeItem enc s d).sellerFeedbackPercent ≠ 0) ∧
    (∀ (enc : String → String) (s : Summary) (d : Option Detail),
      toNumNaN (d.bind Detail.sellerFeedbackPercentage) = some 0 →
      toNumNaN s.sellerFeedbackPercentage = some 0 →
        (mergeItem enc s d).sellerFeedbackPercent = 99) ∧
    (∀ (enc : String → String) (s : Summary) (d : Option Detail),
      toNumNaN (d.bind Detail.priceValue) = some 0 →
        (mergeItem enc s d).price = (mergeItem enc s none).price) := by
  have h0 : numTruthy (some (0 : Rat)) = false := by
    rw [numTruthy_val]
    simp
  refine ⟨?_, ?_, ?_⟩
  · intro enc s d
    rw [mergeItem_feedback]
    cases htr : numTruthy (jsOrNum (toNumNaN (d.bind Detail.sellerFeedbackPercentage))
        (toNumNaN s.sellerFeedbackPercentage)) with
    | false =>
      rw [jsOrNum_falsy _ (some 99) htr]
      norm_num
    | true =>
      rw [jsOrNum_truthy _ (some 99) htr]
      obtain ⟨q, hq, hqne⟩ := numTruthy_some htr
      rw [hq]
      simpa using hqne
  · intro enc s d hd hs
    rw [mergeItem_feedback, hd, hs, jsOrNum_falsy (some 0) (some 0) h0,
      jsOrNum_falsy (some 0) (some 99) h0]
    rfl
  · intro enc s d hd
    rw [mergeItem_price, mergeItem_price, hd,
      jsOrNum_falsy (some 0) (toNumNaN s.priceValue) h0]
    have hnone : toNumNaN ((none : Option Detail).bind Detail.priceValue) = none := rfl
    rw [hnone, jsOrNum_falsy none (toNumNaN s.priceValue) numTruthy_none]
/-- Unfolding: entries contributed by one id at the head of the fan-out. -/
theorem entries_cons (fetch : String → Except String Detail) (r0 : String)
    (rest : List String) :
    detailMapOf (detailResults fetch (r0 :: rest)) =
      (match fetch r0 with
        | .ok d => [(r0, d)]
        | .error _ => []) ++ detailMapOf (detailResults fetch rest) := by
  unfold detailResults detailMapOf
  rw [List.map_cons, List.filterMap_cons]
  cases fetch r0 with
  | ok d => simp
  | error e => simp

/-- A fetch that failed for `rid` leaves no `rid` entry in the detail map,
so `Map.get(rid)` is undefined. -/
theorem mapGetLast_of_error (fetch : String → Except String Detail)
    (rids : List String) (rid : String) (e : String) (hf : fetch rid = .error e) :
    mapGetLast (detailMapOf (detailResults fetch rids)) rid = none := by
  unfold mapGetLast
  have hnil : (detailMapOf (detailResults fetch rids)).filter
      (fun p => p.1 = rid) = [] := by
    induction rids with
    | nil => rfl
    | cons r0 rest ih =>
      rw [entries_cons, List.filter_append, ih, List.append_nil]
      cases hf0 : fetch r0 with
      | ok d =>
        dsimp only
        rw [List.filter_cons]
        have hne : ¬ r0 = rid := by
          intro hcon
          rw [hcon, hf] at hf0
          cases hf0
        simp [hne]
      | error e2 => rfl
  rw [hnil]
  rfl

/-- Entries for any key other than the disturbed one are unchanged when
the fetch oracle changes only at that key. -/
theorem mapGetLast_congr (fetch fetch2 : String → Except String Detail)
    (rids : List String) (rid : String)
    (hagree : ∀ r : String, r ≠ rid → fetch2 r = fetch r)
    (r2 : String) (hr2 : r2 ≠ rid) :
    mapGetLast (detailMapOf (detailResults fetch2 rids)) r2 =
      mapGetLast (detailMapOf (detailResults fetch rids)) r2 := by
  unfold mapGetLast
  have hfe : (detailMapOf (detailResults fetch2 rids)).filter (fun p => p.1 = r2) =
      (detailMapOf (detailResults fetch rids)).filter (fun p => p.1 = r2) := by
    induction rids with
    | nil => rfl
    | cons r0 rest ih =>
      rw [entries_cons, entries_cons, List.filter_append, List.filter_append, ih]
      by_cases h0 : r0 = rid
      · subst h0
        have hne2 : ¬ r0 = r2 := fun hcon => hr2 (by rw [hcon])
        cases hg1 : fetch r0 with
        | ok d1 =>
          cases hg2 : fetch2 r0 with
          | ok d2 =>
            dsimp only
            rw [List.filter_cons, List.filter_cons]
            simp [hne2]
          | error e2 =>
            dsimp only
            rw [List.filter_cons]
            simp [hne2]
        | error e1 =>
          cases hg2 : fetch2 r0 with
          | ok d2 =>
            dsimp only
            rw [List.filter_cons]
            simp [hne2]
          | error e2 => simp
      · rw [hagree r0 h0]
  rw [hfe]

/-- Claim C5: a detail-fetch failure is captured as a per-element error
record; the output keeps one normalized item per summary; the summary
whose fetch failed is merged from summary-only values; and the failure
leaves every sibling's output unchanged.  -/
theorem searchEbayEnriched_detail_failure (enc : String → String)
    (summaries : List Summary) (fetch : String → Except String Detail)
    (j : Nat) (s : Summary) (rid : String) (e : String)
    (hs : summaries[j]? = some s) (hid : s.itemId = some rid) (hne : rid ≠ "")
    (hf : fetch rid = .error e) :
    (searchEbayEnriched enc summaries fetch).length = summaries.length ∧
    (∀ (i : Nat) (r : String), (restIdsOf summaries)[i]? = some r →
      ∀ e2 : String, fetch r = .error e2 →
        (detailResults fetch (restIdsOf summaries))[i]? = some (.err r e2)) ∧
    (searchEbayEnriched enc summaries fetch)[j]? = some (mergeItem enc s none) ∧
    (∀ fetch2 : String → Except String Detail,
      (∀ r : String, r ≠ rid → fetch2 r = fetch r) →
      ∀ (j2 : Nat) (s2 : Summary) (rid2 : String),
        summaries[j2]? = some s2 → s2.itemId = some rid2 → rid2 ≠ rid →
        (searchEbayEnriched enc summaries fetch2)[j2]? =
          (searchEbayEnriched enc summaries fetch)[j2]?) := by
  refine ⟨?_, ?_, ?_, ?_⟩
  · unfold searchEbayEnriched
    rw [List.length_map]
  · intro i r hi e2 hfe
    unfold detailResults
    rw [List.getElem?_map, hi]
    simp only [Option.map]
    rw [hfe]
  · unfold searchEbayEnriched
    rw [List.getElem?_map, hs]
    simp only [Option.map]
    have hrid : ridOf s = some rid := by
      unfold ridOf
      rw [hid]
      simp [hne]
    rw [hrid]
    simp only [Option.bind]
    rw [mapGetLast_of_error fetch _ rid e hf]
  · intro fetch2 hagree j2 s2 rid2 hs2 hid2 hrne
    unfold searchEbayEnriched
    rw [List.getElem?_map, List.getElem?_map, hs2]
    simp only [Option.map]
    by_cases hz : rid2 = ""
    · have hrid2 : ridOf s2 = none := by
        unfold ridOf
        rw [hid2, hz]
        simp
      rw [hrid2]
      rfl
    · have hrid2 : ridOf s2 = some rid2 := by
        unfold ridOf
        rw [hid2]
        simp [hz]
      rw [hrid2]
      simp only [Option.bind]
      rw [mapGetLast_congr fetch fetch2 (restIdsOf summaries) rid hagree rid2 hrne]

/-! ### Concrete witnesses -/

/-- A summary record that carries only an item id. -/
def sumW (r : String) : Summary :=
  ⟨some r, none, none, none, none, none, none, none, none, none, none, none⟩

/-- Five summaries for the one-failure-in-five scenario. -/
def summariesW : List Summary :=
  [sumW "r1", sumW "r2", sumW "r3", sumW "r4", sumW "r5"]

/-- A detail record with no populated fields. -/
def detailW : Detail := ⟨none, none, none, none, none, none, none, none, none, none⟩

/-- A detail oracle that fails exactly for `"r3"`. -/
def fetchW (r : String) : Except String Detail :=
  if r = "r3" then .error "boom" else .ok detailW

theorem mapWithConcurrency_spec_witness :
    inflight (mapWithConcurrency [5, 7] 2 (fun a i => a + i) [0, 1, 0, 1, 0, 1]) ≤ 2 ∧
    (mapWithConcurrency [5, 7] 2 (fun a i => a + i) [0, 1, 0, 1, 0, 1]).out[0]? =
      some (some 5) ∧
    (mapWithConcurrency [5, 7] 2 (fun a i => a + i) [0, 1, 0, 1, 0, 1]).out[1]? =
      some (some 8) :=
  ⟨(mapWithConcurrency_spec [5, 7] 2 (fun a i => a + i) (by decide) [0, 1, 0, 1, 0, 1]).2.1,
    (mapWithConcurrency_spec [5, 7] 2 (fun a i => a + i) (by decide)
      [0, 1, 0, 1, 0, 1]).2.2 (by decide) 0 (by decide),
    (mapWithConcurrency_spec [5, 7] 2 (fun a i => a + i) (by decide)
      [0, 1, 0, 1, 0, 1]).2.2 (by decide) 1 (by decide)⟩

theorem emptyQuery_behavior_witness :
    p0Handler
        ⟨.POST, none, some "tools/call", some "search_ebay", some "   ", none, none, none⟩
        (.okItems "X") =
      ⟨200, .mcpOkText (idOrOne none) "[]", none⟩ ∧
    mcpHandlerSearchReq
        ⟨.POST, some "cid", some "csec", some "2.0", none,
          some "tools/call", some "search_ebay", some "   ", none, none⟩ =
      some ⟨"LEGO", clampInt none 1 50 25, none, none⟩ :=
  ⟨(emptyQuery_behavior "   " (by decide)).1 _ _ rfl rfl rfl rfl,
    (emptyQuery_behavior "   " (by decide)).2 _ rfl (by decide) (by decide) rfl rfl rfl rfl⟩

theorem unknown_method_behavior_witness :
    mcpHandler
        ⟨.POST, some "cid", some "csec", some "2.0", none, some "tools/list",
          none, none, none, none⟩ (.ok "x") =
      ⟨400, .rpcErr none (-32601) "Invalid method"⟩ ∧
    mcpHandler
        ⟨.POST, some "cid", some "csec", some "2.0", none, some "tools/call",
          some "bogus", none, none, none⟩ (.ok "x") =
      ⟨400, .rpcErr none (-32601) ("Unknown tool: " ++ toolNameStr (some "bogus"))⟩ ∧
    p0Handler
        ⟨.POST, none, some "tools/list", none, none, none, none, none⟩
        (.okItems "X") =
      ⟨400, .rpcErrMsg (idOrOne none) "Unsupported method/tool", none⟩ :=
  ⟨unknown_method_behavior.1 _ (.ok "x") rfl (by decide) (by decide) rfl (by decide),
    unknown_method_behavior.2.1 _ (.ok "x") rfl (by decide) (by decide) rfl rfl (by decide),
    unknown_method_behavior.2.2 _ (.okItems "X") rfl (Or.inl (by decide))⟩

theorem token_margin_witness :
    ((⟨some "t", 100000⟩ : TokenCacheP0).cachedToken = some "t" ∧
      (⟨some "t", 100000⟩ : TokenCacheP0) = (⟨some "t", 100000⟩ : TokenCacheP0) ∧
      (⟨some "t", 100000⟩ : TokenCacheP0).cachedTokenExpiresAt - 0 > 60000) ∨
    ((⟨true, 200, true, none, none, ""⟩ : OAuthResp).bodyParses = true ∧
      (⟨true, 200, true, none, none, ""⟩ : OAuthResp).accessToken = some "t" ∧
      (⟨some "t", 100000⟩ : TokenCacheP0).cachedToken = some "t") := by
  have hok : getEbayAccessTokenP0 ⟨some "t", 100000⟩ 0 0 none none none
      ⟨true, 200, true, none, none, ""⟩ = .ok ("t", ⟨some "t", 100000⟩) := by
    unfold getEbayAccessTokenP0
    rw [if_pos]
    · rfl
    · exact ⟨by decide, by norm_num⟩
  exact token_margin.1 _ 0 0 none none none _ "t" _ hok

theorem token_errors_witness :
    getAccessTokenMcp ⟨none, 0⟩ 0 none (some "csec") ⟨true, 200, true, none, none, ""⟩ =
      .error "Missing EBAY_CLIENT_ID / EBAY_CLIENT_SECRET" ∧
    getEbayAccessTokenP0 ⟨none, 0⟩ 0 0 (some "ci") (some "cs") (some "rt")
        ⟨false, 500, true, none, none, ""⟩ =
      .error ("eBay token refresh failed (" ++ toString (500 : Nat) ++ ")") ∧
    getEbayAccessTokenP0 ⟨none, 0⟩ 0 0 (some "ci") (some "cs") (some "rt")
        ⟨true, 200, true, none, none, ""⟩ =
      .error "eBay token refresh returned unexpected payload" ∧
    ("t" ≠ "" ∧ (⟨some "t", 100000⟩ : TokenCacheP0).cachedToken = some "t") := by
  have hok : getEbayAccessTokenP0 ⟨some "t", 100000⟩ 0 0 none none none
      ⟨true, 200, true, none, none, ""⟩ = .ok ("t", ⟨some "t", 100000⟩) := by
    unfold getEbayAccessTokenP0
    rw [if_pos]
    · rfl
    · exact ⟨by decide, by norm_num⟩
  refine ⟨?_, ?_, ?_, token_errors.2.2.2.2.2 _ 0 0 none none none _ "t" _ hok⟩
  · exact token_errors.1 _ 0 none (some "csec") _ (by simp [strTruthy]) (Or.inl rfl)
  · exact token_errors.2.2.2.1 _ 0 0 (some "ci") (some "cs") (some "rt") _
      (by simp [strTruthy]) (by decide) (by decide) (by decide) rfl
  · exact token_errors.2.2.2.2.1 _ 0 0 (some "ci") (some "cs") (some "rt") _
      (by simp [strTruthy]) (by decide) (by decide) (by decide) rfl (Or.inl rfl)

theorem p0_sort_mapping_witness :
    (⟨"lego", jsMin (jsMax (numOrNullish none 50) (some 1)) (some 200),
        jsMax (numOrNullish none 0) (some 0),
        (p0SortParams (some "ENDING_SOON")).1,
        (p0SortParams (some "ENDING_SOON")).2⟩ : P0SearchReq).sort =
      (p0SortParams (some "ENDING_SOON")).1 ∧
    (⟨"lego", jsMin (jsMax (numOrNullish none 50) (some 1)) (some 200),
        jsMax (numOrNullish none 0) (some 0),
        (p0SortParams (some "ENDING_SOON")).1,
        (p0SortParams (some "ENDING_SOON")).2⟩ : P0SearchReq).sortOrder =
      (p0SortParams (some "ENDING_SOON")).2 := by
  have hs : (p0Handler
      ⟨.POST, none, some "tools/call", some "search_ebay", some "lego",
        none, none, some "ENDING_SOON"⟩ (.okItems "X")).searchReq =
      some ⟨"lego", jsMin (jsMax (numOrNullish none 50) (some 1)) (some 200),
        jsMax (numOrNullish none 0) (some 0),
        (p0SortParams (some "ENDING_SOON")).1,
        (p0SortParams (some "ENDING_SOON")).2⟩ := rfl
  exact p0_sort_mapping.2.2.2.2.2.2 _ _ _ hs

theorem searchEbayEnriched_detail_failure_witness :
    (searchEbayEnriched id summariesW fetchW).length = 5 ∧
    (searchEbayEnriched id summariesW fetchW)[2]? =
      some (mergeItem id (sumW "r3") none) :=
  ⟨Eq.trans
      (searchEbayEnriched_detail_failure id summariesW fetchW 2 (sumW "r3") "r3" "boom"
        rfl rfl (by decide) rfl).1 rfl,
    (searchEbayEnriched_detail_failure id summariesW fetchW 2 (sumW "r3") "r3" "boom"
      rfl rfl (by decide) rfl).2.2.1⟩

theorem merge_numeric_fallback_witness :
    (mergeItem id
        ⟨none, none, none, none, none, none, some (.vStr "19.99"), none, none, none,
          none, none⟩ none).price = 19.99 ∧
    (mergeItem id
        ⟨none, none, none, none, none, none, some (.vStr "19.99"), none, none, none,
          none, none⟩ none).shipping = 0 :=
  ⟨merge_numeric_fallback.1 id _ rfl, merge_numeric_fallback.2.1 id _ rfl⟩

theorem merge_zero_treated_as_missing_witness :
    (mergeItem id
        ⟨none, none, none, none, none, none, none, none, none, some (.vNum 0), none, none⟩
        (some ⟨none, none, none, none, none, some (.vNum 0), none, none,
          some (.vNum 0), none⟩)).sellerFeedbackPercent = 99 ∧
    (mergeItem id
        ⟨none, none, none, none, none, none, none, none, none, some (.vNum 0), none, none⟩
        (some ⟨none, none, none, none, none, some (.vNum 0), none, none,
          some (.vNum 0), none⟩)).price =
      (mergeItem id
        ⟨none, none, none, none, none, none, none, none, none, some (.vNum 0), none, none⟩
        none).price :=
  ⟨merge_zero_treated_as_missing.2.1 id _ _ rfl rfl,
    merge_zero_treated_as_missing.2.2 id _ _ rfl⟩

end BrickScout
